import Mathlib

/-!
Shallow embedding of the glyph cache and retrieval pipeline of
`src/core/font.cpp` (class `Font`), together with theorems checking the
natural-language specification against it.

Modelling conventions:
* `uint8_t*` byte buffers become `List Nat` (one `Nat` per byte).
* `std::string` keys stay `String`; a `CacheKey` is `(character, pixelSize)`.
* The `std::map` `cacheMap` becomes an association list; the iterator that the
  C++ map stores alongside each entry is represented by the key's position in
  the embedded `cacheLRUList`, which is exactly what the iterator denotes.
* `malloc` may fail, so allocation success is an explicit `Bool` oracle.
* SD-card side effects (file contents, opens, seeks, reads, removals) are made
  explicit: file systems are passed in as data and results record which files
  were written or removed.
-/

namespace NovelComicReader

/-- The key of the in-memory cache: `(UTF-8 character, pixel size)`
(`Font::CacheKey = std::pair<std::string, uint16_t>`). -/
abbrev CacheKey := String × Nat

/-- `Font::CacheEntry`: owned bitmap bytes, the character pixel size and the
byte count of the bitmap. -/
structure CacheEntry where
  bitmap : List Nat
  size : Nat
  dataSize : Nat
deriving Repr, DecidableEq

/-- The in-memory state of `Font` relevant to the cache: the map, the LRU
list, the byte counters and the cold-load counter `fontsReadFromSDCounter`. -/
structure FontState where
  cacheMap : List (CacheKey × CacheEntry)
  cacheLRUList : List CacheKey
  currentCacheSizeInBytes : Nat
  maxCacheSizeInBytes : Nat
  fontsReadFromSDCounter : Nat
deriving Repr, DecidableEq

/-- `FONT_CACHE_MAX_SIZE_BYTES = 25 * 1024`. -/
def FONT_CACHE_MAX_SIZE_BYTES : Nat := 25 * 1024

/-- `SAVE_CACHE_INTERVAL = 10`. -/
def SAVE_CACHE_INTERVAL : Nat := 10

/-- The state after `Font::Font()`: empty map and list, zero current size and
counter, given maximum size. -/
def initFont (maxBytes : Nat) : FontState :=
  { cacheMap := [], cacheLRUList := [], currentCacheSizeInBytes := 0,
    maxCacheSizeInBytes := maxBytes, fontsReadFromSDCounter := 0 }

/-- `cacheMap.find(key)` on the association list (keys are unique in every
reachable state, so first match is the match). -/
def mapFind (key : CacheKey) : List (CacheKey × CacheEntry) → Option CacheEntry
  | [] => none
  | (k, e) :: rest => if k = key then some e else mapFind key rest

/-- `cacheMap.erase(it)` for the entry with the given key. -/
def mapErase (key : CacheKey) :
    List (CacheKey × CacheEntry) → List (CacheKey × CacheEntry)
  | [] => []
  | (k, e) :: rest => if k = key then rest else (k, e) :: mapErase key rest

/-- `Font::clearMemoryCache`: free all bitmaps, clear map and list, reset the
current byte count. -/
def clearMemoryCache (s : FontState) : FontState :=
  { s with cacheMap := [], cacheLRUList := [], currentCacheSizeInBytes := 0 }

/-- `Font::cacheGet`: `none` on miss; on hit splice the key to the front of
the LRU list and return the entry. -/
def cacheGet (s : FontState) (key : CacheKey) : Option CacheEntry × FontState :=
  match mapFind key s.cacheMap with
  | none => (none, s)
  | some e =>
    (some e, { s with cacheLRUList := key :: s.cacheLRUList.erase key })

/-- The loop body of `Font::cacheEvict`, fuelled by the LRU list length (each
iteration pops exactly one element off the back of the list, so
`cacheLRUList.length` steps of fuel are exactly enough).  The loop runs while
`currentCacheSizeInBytes > maxCacheSizeInBytes` and the list is nonempty; each
iteration takes the back key, frees and erases its map entry if present,
subtracts its `dataSize`, and pops the list. -/
def cacheEvictGo (fuel : Nat) (m : List (CacheKey × CacheEntry))
    (lru : List CacheKey) (cur maxB : Nat) :
    List (CacheKey × CacheEntry) × List CacheKey × Nat :=
  match fuel with
  | 0 => (m, lru, cur)
  | fuel + 1 =>
    if maxB < cur ∧ lru ≠ [] then
      let lruKey := lru.getLastD ("", 0)
      match mapFind lruKey m with
      | some e =>
        cacheEvictGo fuel (mapErase lruKey m) lru.dropLast (cur - e.dataSize) maxB
      | none => cacheEvictGo fuel m lru.dropLast cur maxB
    else (m, lru, cur)

/-- `Font::cacheEvict`. -/
def cacheEvict (s : FontState) : FontState :=
  let r := cacheEvictGo s.cacheLRUList.length s.cacheMap s.cacheLRUList
    s.currentCacheSizeInBytes s.maxCacheSizeInBytes
  { s with cacheMap := r.1, cacheLRUList := r.2.1, currentCacheSizeInBytes := r.2.2 }

/-- `Font::cachePut`.  `allocOk` models the `malloc` for the cached copy; the
`memcpy` copies `dataSize` bytes out of `data`.  Early return when the key is
already present; eviction attempt and re-check when the new entry would push
the current size over the maximum (when the first check fails the second is
not evaluated in C++, but it is then false anyway on the unchanged state);
silently drop when still over; otherwise push the key to the front of the LRU
list, insert the entry into the map and add its size. -/
def cachePut (s : FontState) (key : CacheKey) (data : List Nat)
    (charSize dataSize : Nat) (allocOk : Bool) : FontState :=
  if (mapFind key s.cacheMap).isSome then s
  else
    let s1 :=
      if s.maxCacheSizeInBytes < s.currentCacheSizeInBytes + dataSize then
        cacheEvict s
      else s
    if s1.maxCacheSizeInBytes < s1.currentCacheSizeInBytes + dataSize then s1
    else if !allocOk then s1
    else
      { s1 with
        cacheLRUList := key :: s1.cacheLRUList,
        cacheMap := (key, { bitmap := data.take dataSize, size := charSize,
                            dataSize := dataSize }) :: s1.cacheMap,
        currentCacheSizeInBytes := s1.currentCacheSizeInBytes + dataSize }

/-- Total `dataSize` of the live entries of the map (the value
`currentCacheSizeInBytes` is supposed to track). -/
def cacheMapBytes (m : List (CacheKey × CacheEntry)) : Nat :=
  (m.map (fun p => p.2.dataSize)).sum

/-- The budget invariant of §3 of the spec: the byte counter equals the sum of
the live entries' sizes and stays within the maximum. -/
def SizeInv (s : FontState) : Prop :=
  s.currentCacheSizeInBytes = cacheMapBytes s.cacheMap ∧
  s.currentCacheSizeInBytes ≤ s.maxCacheSizeInBytes

theorem cacheEvictGo_of_le (fuel : Nat) (m : List (CacheKey × CacheEntry))
    (lru : List CacheKey) (cur maxB : Nat) (h : cur ≤ maxB) :
    cacheEvictGo fuel m lru cur maxB = (m, lru, cur) := by
  cases fuel with
  | zero => rfl
  | succ n =>
    unfold cacheEvictGo
    rw [if_neg]
    intro hc
    exact absurd hc.1 (not_lt.mpr h)

theorem cacheEvict_of_le (s : FontState)
    (h : s.currentCacheSizeInBytes ≤ s.maxCacheSizeInBytes) :
    cacheEvict s = s := by
  unfold cacheEvict
  rw [cacheEvictGo_of_le _ _ _ _ _ h]

theorem sizeInv_cachePut (s : FontState) (key : CacheKey) (data : List Nat)
    (charSize dataSize : Nat) (allocOk : Bool) (h : SizeInv s) :
    SizeInv (cachePut s key data charSize dataSize allocOk) := by
  unfold cachePut
  by_cases hk : (mapFind key s.cacheMap).isSome
  · simpa [hk] using h
  · rw [if_neg hk]
    rw [show (if s.maxCacheSizeInBytes < s.currentCacheSizeInBytes + dataSize
        then cacheEvict s else s) = s from by
      split <;> [exact cacheEvict_of_le s h.2; rfl]]
    by_cases hb : s.maxCacheSizeInBytes < s.currentCacheSizeInBytes + dataSize
    · simpa [hb] using h
    · rw [if_neg hb]
      cases allocOk with
      | false => simpa using h
      | true =>
        refine ⟨?_, ?_⟩
        · simp only [cacheMapBytes, List.map_cons, List.sum_cons]
          rw [h.1]
          exact Nat.add_comm _ _
        · simpa using not_lt.mp hb

theorem sizeInv_cacheEvict (s : FontState) (h : SizeInv s) :
    SizeInv (cacheEvict s) := by
  rw [cacheEvict_of_le s h.2]
  exact h

theorem sizeInv_clear (s : FontState) :
    SizeInv (clearMemoryCache s) := by
  refine ⟨rfl, ?_⟩
  exact Nat.zero_le _

/-- One record of the `fast.json` metadata array.  `char := none` models a
missing or non-string `"char"` field (a null `character_cstr`); missing
numeric fields read as `0` in ArduinoJson, which `0` already represents. -/
structure MetaEntry where
  char : Option String
  size : Nat
  offset : Nat
  dataSize : Nat
deriving Repr, DecidableEq

/-- The on-disk and I/O environment `Font::loadFastFontCache` runs against:
existence of the two snapshot files, success of the opens and of the JSON
parse, the parsed metadata array, the byte content of `fast.font`, and a
per-entry allocation oracle for the `malloc` in the load loop. -/
structure FastCacheDisk where
  jsonExists : Bool
  binExists : Bool
  jsonOpenOk : Bool
  parseOk : Bool
  entries : List MetaEntry
  binOpenOk : Bool
  blob : List Nat
  allocOk : Nat → Bool

/-- Result of `Font::loadFastFontCache`: the new memory state, the returned
`bool`, and whether each snapshot file was `SD.remove`d. -/
structure LoadResult where
  state : FontState
  ok : Bool
  removedBin : Bool
  removedJson : Bool
deriving Repr, DecidableEq

/-- The entry loop of `Font::loadFastFontCache` (lines 300–404).  Per entry:
skip when `char` is null or `size`/`dataSize` is zero, skip when the key is
already present, `break` (returning the state as is) when admitting the entry
would exceed the budget, skip on allocation failure, skip when the seek to
`offset` fails (`offset` past the end of the blob) or the read is short, and
otherwise insert the entry directly into map and list, front of LRU, adding
its `dataSize` to the byte counter. -/
def fastLoadGo (blob : List Nat) (allocOk : Nat → Bool) :
    List MetaEntry → Nat → FontState → FontState
  | [], _, s => s
  | e :: rest, i, s =>
    match e.char with
    | none => fastLoadGo blob allocOk rest (i + 1) s
    | some ch =>
      if e.size = 0 ∨ e.dataSize = 0 then fastLoadGo blob allocOk rest (i + 1) s
      else
        let key : CacheKey := (ch, e.size)
        if (mapFind key s.cacheMap).isSome then
          fastLoadGo blob allocOk rest (i + 1) s
        else if s.maxCacheSizeInBytes < s.currentCacheSizeInBytes + e.dataSize then
          s
        else if !(allocOk i) then fastLoadGo blob allocOk rest (i + 1) s
        else if blob.length < e.offset then fastLoadGo blob allocOk rest (i + 1) s
        else if min e.dataSize (blob.length - e.offset) ≠ e.dataSize then
          fastLoadGo blob allocOk rest (i + 1) s
        else
          let bitmapData := (blob.drop e.offset).take e.dataSize
          fastLoadGo blob allocOk rest (i + 1)
            { s with
              cacheLRUList := key :: s.cacheLRUList,
              cacheMap := (key, { bitmap := bitmapData, size := e.size,
                                  dataSize := e.dataSize }) :: s.cacheMap,
              currentCacheSizeInBytes := s.currentCacheSizeInBytes + e.dataSize }

/-- `Font::loadFastFontCache`: missing file or failed JSON open return failure
without touching anything; a parse error removes both files and fails; a
failed blob open removes only the JSON file and fails; otherwise the memory
cache is cleared and the entry loop runs, and the function returns success
(an empty metadata array is also success). -/
def loadFastFontCache (s : FontState) (d : FastCacheDisk) : LoadResult :=
  if !(d.jsonExists && d.binExists) then ⟨s, false, false, false⟩
  else if !d.jsonOpenOk then ⟨s, false, false, false⟩
  else if !d.parseOk then ⟨s, false, true, true⟩
  else if !d.binOpenOk then ⟨s, false, false, true⟩
  else
    let s0 := clearMemoryCache s
    if d.entries.length = 0 then ⟨s0, true, false, false⟩
    else ⟨fastLoadGo d.blob d.allocOk d.entries 0 s0, true, false, false⟩

theorem sizeInv_fastLoadGo (blob : List Nat) (allocOk : Nat → Bool)
    (entries : List MetaEntry) :
    ∀ (i : Nat) (s : FontState), SizeInv s →
      SizeInv (fastLoadGo blob allocOk entries i s) := by
  induction entries with
  | nil => intro i s h; exact h
  | cons e rest ih =>
    intro i s h
    obtain ⟨ech, esize, eoff, eds⟩ := e
    cases ech with
    | none => exact ih _ _ h
    | some ch =>
      show SizeInv
        (if esize = 0 ∨ eds = 0 then fastLoadGo blob allocOk rest (i + 1) s
         else
           if (mapFind (ch, esize) s.cacheMap).isSome then
             fastLoadGo blob allocOk rest (i + 1) s
           else if s.maxCacheSizeInBytes < s.currentCacheSizeInBytes + eds then s
           else if !(allocOk i) then fastLoadGo blob allocOk rest (i + 1) s
           else if blob.length < eoff then fastLoadGo blob allocOk rest (i + 1) s
           else if min eds (blob.length - eoff) ≠ eds then
             fastLoadGo blob allocOk rest (i + 1) s
           else
             fastLoadGo blob allocOk rest (i + 1)
               { s with
                 cacheLRUList := (ch, esize) :: s.cacheLRUList,
                 cacheMap := ((ch, esize),
                   { bitmap := (blob.drop eoff).take eds, size := esize,
                     dataSize := eds }) :: s.cacheMap,
                 currentCacheSizeInBytes := s.currentCacheSizeInBytes + eds })
      by_cases h0 : esize = 0 ∨ eds = 0
      · simpa [h0] using ih _ _ h
      · rw [if_neg h0]
        by_cases hk : (mapFind (ch, esize) s.cacheMap).isSome
        · simpa [hk] using ih _ _ h
        · simp only [hk, if_false, Bool.false_eq_true]
          by_cases hb : s.maxCacheSizeInBytes < s.currentCacheSizeInBytes + eds
          · simpa [hb] using h
          · rw [if_neg hb]
            by_cases ha : allocOk i
            · simp only [ha, Bool.not_true, Bool.false_eq_true, if_false]
              by_cases hs : blob.length < eoff
              · simpa [hs] using ih _ _ h
              · rw [if_neg hs]
                by_cases hr : min eds (blob.length - eoff) ≠ eds
                · simpa [hr] using ih _ _ h
                · rw [if_neg hr]
                  refine ih _ _ ⟨?_, ?_⟩
                  · simp only [cacheMapBytes, List.map_cons, List.sum_cons]
                    rw [h.1]
                    exact Nat.add_comm _ _
                  · simpa using not_lt.mp hb
            · simpa [ha] using ih _ _ h

theorem sizeInv_loadFast (s : FontState) (d : FastCacheDisk) (h : SizeInv s) :
    SizeInv (loadFastFontCache s d).state := by
  unfold loadFastFontCache
  split
  · exact h
  · split
    · exact h
    · split
      · exact h
      · split
        · exact h
        · split
          · exact sizeInv_clear s
          · exact sizeInv_fastLoadGo _ _ _ _ _ (sizeInv_clear s)

/-- The cache-mutating operations of `Font` reachable from outside the class:
`cachePut`, `cacheEvict`, `clearMemoryCache` and `loadFastFontCache` (with its
whole I/O environment as data). -/
inductive FontOp where
  | put (key : CacheKey) (data : List Nat) (charSize dataSize : Nat) (allocOk : Bool)
  | evict
  | clear
  | loadFast (d : FastCacheDisk)

/-- Apply one operation to the cache state. -/
def applyOp (s : FontState) : FontOp → FontState
  | .put k d cs ds a => cachePut s k d cs ds a
  | .evict => cacheEvict s
  | .clear => clearMemoryCache s
  | .loadFast d => (loadFastFontCache s d).state

/-- Run a sequence of operations from the freshly constructed (empty) cache. -/
def runOps (maxBytes : Nat) (ops : List FontOp) : FontState :=
  ops.foldl applyOp (initFont maxBytes)

theorem sizeInv_applyOp (s : FontState) (op : FontOp) (h : SizeInv s) :
    SizeInv (applyOp s op) := by
  cases op with
  | put k d cs ds a => exact sizeInv_cachePut s k d cs ds a h
  | evict => exact sizeInv_cacheEvict s h
  | clear => exact sizeInv_clear s
  | loadFast d => exact sizeInv_loadFast s d h

theorem sizeInv_foldl (ops : List FontOp) :
    ∀ (s : FontState), SizeInv s → SizeInv (ops.foldl applyOp s) := by
  induction ops with
  | nil => intro s h; exact h
  | cons op rest ih =>
    intro s h
    exact ih _ (sizeInv_applyOp s op h)

/-- **C2.** For all sequences of `cachePut`, `cacheEvict`, `clearMemoryCache`
and `loadFastFontCache` operations starting from an empty cache, after every
operation `currentCacheSizeInBytes` equals the sum of `dataSize` over all
entries live in `cacheMap`, and `currentCacheSizeInBytes` stays at or below
`maxCacheSizeInBytes`. -/
theorem budget_invariant_all_sequences (maxBytes : Nat) (ops : List FontOp) :
    (runOps maxBytes ops).currentCacheSizeInBytes
        = cacheMapBytes (runOps maxBytes ops).cacheMap ∧
    (runOps maxBytes ops).currentCacheSizeInBytes
        ≤ (runOps maxBytes ops).maxCacheSizeInBytes := by
  exact sizeInv_foldl ops (initFont maxBytes) ⟨rfl, Nat.zero_le _⟩

/-- **C7.** `cachePut` is idempotent in its key: when the key is already
present the call leaves the whole state unchanged — bytes not refreshed, LRU
position not promoted, `currentCacheSizeInBytes` unchanged. -/
theorem cachePut_idempotent (s : FontState) (key : CacheKey) (data : List Nat)
    (charSize dataSize : Nat) (allocOk : Bool)
    (h : (mapFind key s.cacheMap).isSome) :
    cachePut s key data charSize dataSize allocOk = s := by
  unfold cachePut
  rw [if_pos h]

/-- Witness for C7: a concrete state already holding the key `("A", 16)`;
a second `cachePut` with that key, different bytes and a different size is a
no-op. -/
theorem cachePut_idempotent_witness :
    (mapFind ("A", 16)
        (cachePut (initFont 64) ("A", 16) (List.replicate 32 0) 16 32 true).cacheMap).isSome
      = true ∧
    cachePut (cachePut (initFont 64) ("A", 16) (List.replicate 32 0) 16 32 true)
        ("A", 16) (List.replicate 32 7) 16 32 true
      = cachePut (initFont 64) ("A", 16) (List.replicate 32 0) 16 32 true :=
  ⟨by decide, cachePut_idempotent _ _ _ _ _ _ (by decide)⟩

/-- The three-put scenario of C1 run on the embedded code: budget 64 bytes,
three 32-byte glyphs `A`, `B`, `C` in that order. -/
def c1Final : FontState :=
  cachePut
    (cachePut
      (cachePut (initFont 64) ("A", 16) (List.replicate 32 0) 16 32 true)
      ("B", 16) (List.replicate 32 1) 16 32 true)
    ("C", 16) (List.replicate 32 2) 16 32 true

/-- **C1** (evaluation at the failing input).  With budget 64 and three
successive 32-byte puts `A`, `B`, `C`, the code does NOT evict `A` and does
NOT insert `C`: `cacheEvict` only evicts while `currentCacheSizeInBytes`
already exceeds `maxCacheSizeInBytes`, which never holds at `cachePut` time,
so the eviction pass frees nothing, the re-check still fails and `C` is
silently dropped.  The final cache holds exactly `{A, B}` with
`currentCacheSizeInBytes = 64`, contradicting the claimed `{B, C}`. -/
theorem c1_code_behavior :
    c1Final.cacheMap.map Prod.fst = [("B", 16), ("A", 16)] ∧
    mapFind ("C", 16) c1Final.cacheMap = none ∧
    c1Final.currentCacheSizeInBytes = 64 ∧
    c1Final.cacheLRUList = [("B", 16), ("A", 16)] := by
  decide

/-- **C3** (counterexample input): a well-formed metadata document whose single
entry records offset 100 into an empty blob file — the seek is out of range. -/
def c3Disk : FastCacheDisk :=
  { jsonExists := true, binExists := true, jsonOpenOk := true, parseOk := true,
    entries := [{ char := some "A", size := 16, offset := 100, dataSize := 32 }],
    binOpenOk := true, blob := [], allocOk := fun _ => true }

/-- **C3** (counterexample).  With a metadata entry whose offset is out of
range for the blob, `loadFastFontCache` does NOT delete the snapshot files and
does NOT return failure: the failed seek merely skips the entry and the load
reports success with both files left in place, contradicting the claim. -/
theorem c3_counterexample :
    (loadFastFontCache (initFont 64) c3Disk).ok = true ∧
    (loadFastFontCache (initFont 64) c3Disk).removedJson = false ∧
    (loadFastFontCache (initFont 64) c3Disk).removedBin = false ∧
    (loadFastFontCache (initFont 64) c3Disk).state.cacheMap = [] := by
  decide

/-- **C3** (amended).  Only a JSON parse failure deletes both snapshot files
(and returns failure); when the metadata parses but the blob file cannot be
opened only the metadata file is deleted; once both files are open the load
always returns success and deletes nothing — per-entry seek or read
inconsistencies (such as an out-of-range offset) just skip that entry. -/
theorem loadFastFontCache_cleanup (s : FontState) (d : FastCacheDisk)
    (hj : d.jsonExists = true) (hb : d.binExists = true)
    (ho : d.jsonOpenOk = true) :
    (d.parseOk = false → loadFastFontCache s d = ⟨s, false, true, true⟩) ∧
    (d.parseOk = true → d.binOpenOk = false →
      (loadFastFontCache s d).ok = false ∧
      (loadFastFontCache s d).removedJson = true ∧
      (loadFastFontCache s d).removedBin = false) ∧
    (d.parseOk = true → d.binOpenOk = true →
      (loadFastFontCache s d).ok = true ∧
      (loadFastFontCache s d).removedJson = false ∧
      (loadFastFontCache s d).removedBin = false) := by
  refine ⟨?_, ?_, ?_⟩
  · intro hp
    unfold loadFastFontCache
    simp [hj, hb, ho, hp]
  · intro hp hbo
    unfold loadFastFontCache
    simp [hj, hb, ho, hp, hbo]
  · intro hp hbo
    unfold loadFastFontCache
    simp only [hj, hb, ho, hp, hbo, Bool.and_self, Bool.not_true,
      Bool.false_eq_true, if_false]
    split <;> exact ⟨rfl, rfl, rfl⟩

/-- **C3** (amended-theorem witness): a disk whose metadata fails to parse;
both snapshot files are removed and failure is returned. -/
theorem loadFastFontCache_cleanup_witness :
    loadFastFontCache (initFont 64)
      { jsonExists := true, binExists := true, jsonOpenOk := true,
        parseOk := false, entries := [], binOpenOk := true, blob := [],
        allocOk := fun _ => true }
      = ⟨initFont 64, false, true, true⟩ :=
  (loadFastFontCache_cleanup (initFont 64) _ rfl rfl rfl).1 rfl

/-- The byte index into a C string: reading at or past the terminator gives
the NUL byte `0` (the embedded strings carry no interior NUL). -/
def strByte (str : List Nat) (i : Nat) : Nat := str.getD i 0

/-- `Font::getNextCharacter` (lines 693–712): return `""` at the terminator;
otherwise advance `offset` by the UTF-8 sequence length determined by the lead
byte — and by nothing at all when the byte matches no lead pattern — then
return the bytes between the old and the new offset. -/
def getNextCharacter (str : List Nat) (offset : Nat) : List Nat × Nat :=
  if strByte str offset = 0 then ([], offset)
  else
    let first := strByte str offset
    let offset2 :=
      if first < 0x80 then offset + 1
      else if first &&& 0xE0 = 0xC0 then offset + 2
      else if first &&& 0xF0 = 0xE0 then offset + 3
      else if first &&& 0xF8 = 0xF0 then offset + 4
      else offset
    ((str.drop offset).take (offset2 - offset), offset2)

/-- **C10.** When the byte at `offset` is nonzero (end of string not reached)
but matches none of the UTF-8 lead-byte patterns, `getNextCharacter` returns
the empty string and leaves `offset` unchanged, so a caller advancing through
the string solely via `getNextCharacter` never makes progress past that
byte. -/
theorem getNextCharacter_stuck (str : List Nat) (offset : Nat)
    (h0 : strByte str offset ≠ 0)
    (h1 : ¬ strByte str offset < 0x80)
    (h2 : strByte str offset &&& 0xE0 ≠ 0xC0)
    (h3 : strByte str offset &&& 0xF0 ≠ 0xE0)
    (h4 : strByte str offset &&& 0xF8 ≠ 0xF0) :
    getNextCharacter str offset = ([], offset) := by
  unfold getNextCharacter
  rw [if_neg h0]
  simp only [if_neg h1, if_neg h2, if_neg h3, if_neg h4]
  simp

/-- Witness for C10: the string consisting of the lone continuation byte
`0x80`; `getNextCharacter` returns `""` and offset `0` although the end of the
string has not been reached. -/
theorem getNextCharacter_stuck_witness :
    (strByte [0x80] 0 ≠ 0 ∧ ¬ strByte [0x80] 0 < 0x80) ∧
    getNextCharacter [0x80] 0 = ([], 0) :=
  ⟨by decide,
   getNextCharacter_stuck [0x80] 0 (by decide) (by decide) (by decide)
     (by decide) (by decide)⟩

/-- The buffer size `Font::loadCharacter` computes for a glyph of the given
pixel size, at line 483 (per-glyph cache path) and line 568 (cold index
path): `(size * size + 7) / 8`. -/
def glyphBufferSize (size : Nat) : Nat := (size * size + 7) / 8

/-- Modelled from the spec (§6): `rowBytes = ceil(pixelSize/8)`. -/
def specRowBytes (pixelSize : Nat) : Nat := (pixelSize + 7) / 8

/-- Modelled from the spec (§6): total row-byte-aligned bitmap size
`rowBytes * pixelSize`. -/
def specGlyphBytes (pixelSize : Nat) : Nat := specRowBytes pixelSize * pixelSize

/-- **C9** (counterexample).  At `pixelSize = 12` the byte length the code
allocates, `(12² + 7) / 8 = 18`, differs from the row-byte-aligned
`ceil(12/8) * 12 = 24`: the two formulas of the claim do not coincide for
every `pixelSize`. -/
theorem glyphBufferSize_ne_rowBytes_at_12 :
    glyphBufferSize 12 = 18 ∧ specGlyphBytes 12 = 24 ∧
    glyphBufferSize 12 ≠ specGlyphBytes 12 := by
  decide

/-- **C9** (amended).  For every `pixelSize` that is a multiple of 8 (all
sizes the renderer uses: 16, 24, 32), the byte length `loadCharacter`
allocates and reads, `(pixelSize² + 7) / 8`, equals the row-byte-aligned size
`ceil(pixelSize/8) * pixelSize`. -/
theorem glyphBufferSize_eq_rowBytes_of_dvd (size : Nat) (h : 8 ∣ size) :
    glyphBufferSize size = specGlyphBytes size := by
  obtain ⟨k, rfl⟩ := h
  unfold glyphBufferSize specGlyphBytes specRowBytes
  have h1 : 8 * k * (8 * k) + 7 = 64 * (k * k) + 7 := by ring
  have h2 : (64 * (k * k) + 7) / 8 = 8 * (k * k) := by omega
  have h3 : (8 * k + 7) / 8 = k := by omega
  rw [h1, h2, h3]
  ring

/-- Witness for the amended C9 at `pixelSize = 16`: both formulas give 32. -/
theorem glyphBufferSize_eq_rowBytes_witness :
    (8 ∣ 16) ∧ glyphBufferSize 16 = specGlyphBytes 16 :=
  ⟨by decide, glyphBufferSize_eq_rowBytes_of_dvd 16 (by decide)⟩

/-- A write event of `Font::saveFastFontCache`, in the order the writes hit
the card: one `writeBin` per cache entry, one `writeJson` for the metadata. -/
inductive SaveEvent where
  | writeBin (bytes : List Nat)
  | writeJson
deriving Repr, DecidableEq

/-- One record of the metadata array `saveFastFontCache` builds:
`(char, size, offset, dataSize)`. -/
structure SaveMeta where
  char : String
  size : Nat
  offset : Nat
  dataSize : Nat
deriving Repr, DecidableEq

/-- The I/O environment `Font::saveFastFontCache` runs against: directory
existence / `mkdir` success, the two opens, how many bytes the `i`-th
`binFile.write` of a requested `n` bytes reports, whether the
`StaticJsonDocument<16384>` pool still has room for the `i`-th entry's
`createNestedObject` and its four members (once the fixed 16KB pool is
exhausted the nested object is null and the member assignments are silent
no-ops, so that entry is omitted from the metadata while its bitmap is still
written), and how many bytes `serializeJson` reports (0 = failure). -/
structure SaveEnv where
  dirExists : Bool
  mkdirOk : Bool
  jsonOpenOk : Bool
  binOpenOk : Bool
  binWritten : Nat → Nat → Nat
  metaAllocOk : Nat → Bool
  serializeWritten : Nat

/-- Result of the entry loop of `saveFastFontCache`: whether every bitmap
write reported full length, the metadata records built so far, the bytes that
reached the blob file, and the write events. -/
structure SaveLoopResult where
  ok : Bool
  meta : List SaveMeta
  blob : List Nat
  events : List SaveEvent
deriving Repr, DecidableEq

/-- The entry loop of `Font::saveFastFontCache` (lines 166–191): for each
cache entry write its `dataSize` bitmap bytes to the blob file; on a short
write stop at once with failure; otherwise record
`(char, size, currentOffset, dataSize)` into the metadata document — the
record lands there only while the `StaticJsonDocument<16384>` pool has room
(`metaAllocOk`), a silently-null nested object dropping it otherwise — and
advance `currentOffset` by `dataSize` regardless. -/
def saveGo (env : SaveEnv) :
    List (CacheKey × CacheEntry) → Nat → Nat → SaveLoopResult
  | [], _, _ => { ok := true, meta := [], blob := [], events := [] }
  | (key, entry) :: rest, i, currentOffset =>
    let chunk := entry.bitmap.take entry.dataSize
    let written := env.binWritten i entry.dataSize
    if written ≠ entry.dataSize then
      { ok := false, meta := [], blob := chunk.take written,
        events := [SaveEvent.writeBin chunk] }
    else
      let r := saveGo env rest (i + 1) (currentOffset + entry.dataSize)
      { ok := r.ok,
        meta :=
          if env.metaAllocOk i then
            { char := key.1, size := key.2, offset := currentOffset,
              dataSize := entry.dataSize } :: r.meta
          else r.meta,
        blob := chunk ++ r.blob,
        events := SaveEvent.writeBin chunk :: r.events }

/-- Result of `Font::saveFastFontCache`: the returned `bool`, whether each
output file was `SD.remove`d, the metadata array, the blob bytes, and the
write events in order. -/
structure SaveResult where
  ok : Bool
  removedBin : Bool
  removedJson : Bool
  meta : List SaveMeta
  blob : List Nat
  events : List SaveEvent
deriving Repr, DecidableEq

/-- `Font::saveFastFontCache` (lines 131–209): fail if `/font_data` neither
exists nor can be created, or either open fails (nothing written yet, nothing
removed); run the entry loop, and on a short bitmap write remove both output
files and fail; serialize the metadata document last, and when it reports 0
bytes remove both output files and fail; otherwise success. -/
def saveFastFontCache (s : FontState) (env : SaveEnv) : SaveResult :=
  if !env.dirExists && !env.mkdirOk then
    { ok := false, removedBin := false, removedJson := false, meta := [],
      blob := [], events := [] }
  else if !env.jsonOpenOk then
    { ok := false, removedBin := false, removedJson := false, meta := [],
      blob := [], events := [] }
  else if !env.binOpenOk then
    { ok := false, removedBin := false, removedJson := false, meta := [],
      blob := [], events := [] }
  else
    let r := saveGo env s.cacheMap 0 0
    if !r.ok then
      { ok := false, removedBin := true, removedJson := true, meta := r.meta,
        blob := r.blob, events := r.events }
    else if env.serializeWritten = 0 then
      { ok := false, removedBin := true, removedJson := true, meta := r.meta,
        blob := r.blob, events := r.events }
    else
      { ok := true, removedBin := false, removedJson := false, meta := r.meta,
        blob := r.blob, events := r.events ++ [SaveEvent.writeJson] }

/-- The complete metadata layout: each entry at the running offset, offsets
advancing by `dataSize` — i.e. the recorded offsets are the prefix sums of
the entry sizes (contiguity). -/
def metaLayout (offset : Nat) : List (CacheKey × CacheEntry) → List SaveMeta
  | [] => []
  | (key, e) :: rest =>
    { char := key.1, size := key.2, offset := offset, dataSize := e.dataSize }
      :: metaLayout (offset + e.dataSize) rest

/-- The metadata layout the save loop actually produces when no bitmap write
fails: like `metaLayout`, but an entry whose document-pool allocation failed
is omitted (its offset is still consumed, since `currentOffset` advances for
every entry). -/
def metaLayoutSel (fits : Nat → Bool) :
    Nat → Nat → List (CacheKey × CacheEntry) → List SaveMeta
  | _, _, [] => []
  | i, offset, (key, e) :: rest =>
    if fits i then
      { char := key.1, size := key.2, offset := offset, dataSize := e.dataSize }
        :: metaLayoutSel fits (i + 1) (offset + e.dataSize) rest
    else metaLayoutSel fits (i + 1) (offset + e.dataSize) rest

theorem metaLayoutSel_all (fits : Nat → Bool) (hfits : ∀ j, fits j = true)
    (l : List (CacheKey × CacheEntry)) :
    ∀ (i off : Nat), metaLayoutSel fits i off l = metaLayout off l := by
  induction l with
  | nil => intro i off; rfl
  | cons p rest ih =>
    intro i off
    obtain ⟨key, e⟩ := p
    unfold metaLayoutSel metaLayout
    rw [if_pos (hfits i)]
    rw [ih]

theorem saveGo_success (env : SaveEnv) (l : List (CacheKey × CacheEntry))
    (hw : ∀ j n, env.binWritten j n = n) :
    ∀ (i off : Nat),
      saveGo env l i off =
        { ok := true, meta := metaLayoutSel env.metaAllocOk i off l,
          blob := (l.map fun p => p.2.bitmap.take p.2.dataSize).flatten,
          events := l.map fun p => SaveEvent.writeBin (p.2.bitmap.take p.2.dataSize) } := by
  induction l with
  | nil => intro i off; rfl
  | cons p rest ih =>
    intro i off
    obtain ⟨key, entry⟩ := p
    unfold saveGo
    rw [if_neg (by rw [hw]; exact fun h => h rfl)]
    rw [ih (i + 1) (off + entry.dataSize)]
    unfold metaLayoutSel
    split <;> rfl

theorem saveGo_short (env : SaveEnv) (pre : List (CacheKey × CacheEntry))
    (key : CacheKey) (entry : CacheEntry)
    (post : List (CacheKey × CacheEntry)) :
    ∀ (i off : Nat),
      (∀ j n, j < pre.length → env.binWritten (i + j) n = n) →
      env.binWritten (i + pre.length) entry.dataSize ≠ entry.dataSize →
      (saveGo env (pre ++ (key, entry) :: post) i off).ok = false := by
  induction pre with
  | nil =>
    intro i off _ hshort
    rw [List.nil_append]
    unfold saveGo
    rw [if_pos (by simpa using hshort)]
  | cons p rest ih =>
    intro i off hfull hshort
    obtain ⟨k0, e0⟩ := p
    show (saveGo env ((k0, e0) :: (rest ++ (key, entry) :: post)) i off).ok = false
    unfold saveGo
    rw [if_neg (by
      have hw := hfull 0 e0.dataSize (by simp)
      rw [Nat.add_zero] at hw
      rw [hw]
      exact fun h => h rfl)]
    exact ih (i + 1) (off + e0.dataSize)
      (fun j n hj => by
        have := hfull (j + 1) n (by simpa using Nat.succ_lt_succ hj)
        simpa [Nat.add_assoc, Nat.add_comm 1 j] using this)
      (by
        have h1 : i + 1 + rest.length = i + ((k0, e0) :: rest).length := by
          simp [Nat.add_assoc, Nat.add_comm 1 rest.length]
        rw [h1]
        exact hshort)

/-- **C5.** `saveFastFontCache` writes every cached bitmap contiguously into
the blob file — the blob is the concatenation of the bitmaps and the
metadata records carry the prefix-sum offsets — and writes the metadata
document last (after every bitmap write); if a bitmap write is short, or
serializing the metadata writes zero bytes, both output files are deleted and
failure is returned.  The metadata records are those whose
`StaticJsonDocument<16384>` pool allocation succeeded (`metaLayoutSel`); an
entry that no longer fits is silently omitted while its bitmap is still
written and the save still reports success, so the metadata is complete
exactly when the pool suffices for every entry. -/
theorem saveFastFontCache_spec (s : FontState) (env : SaveEnv)
    (hdir : env.dirExists = true ∨ env.mkdirOk = true)
    (hjson : env.jsonOpenOk = true) (hbin : env.binOpenOk = true) :
    ((∀ j n, env.binWritten j n = n) → env.serializeWritten ≠ 0 →
      saveFastFontCache s env =
        { ok := true, removedBin := false, removedJson := false,
          meta := metaLayoutSel env.metaAllocOk 0 0 s.cacheMap,
          blob := (s.cacheMap.map fun p => p.2.bitmap.take p.2.dataSize).flatten,
          events :=
            (s.cacheMap.map fun p =>
              SaveEvent.writeBin (p.2.bitmap.take p.2.dataSize))
              ++ [SaveEvent.writeJson] } ∧
      ((∀ j, env.metaAllocOk j = true) →
        (saveFastFontCache s env).meta = metaLayout 0 s.cacheMap)) ∧
    ((∀ j n, env.binWritten j n = n) → env.serializeWritten = 0 →
      (saveFastFontCache s env).ok = false ∧
      (saveFastFontCache s env).removedBin = true ∧
      (saveFastFontCache s env).removedJson = true) ∧
    (∀ pre key entry post, s.cacheMap = pre ++ (key, entry) :: post →
      (∀ j n, j < pre.length → env.binWritten j n = n) →
      env.binWritten pre.length entry.dataSize ≠ entry.dataSize →
      (saveFastFontCache s env).ok = false ∧
      (saveFastFontCache s env).removedBin = true ∧
      (saveFastFontCache s env).removedJson = true) := by
  have hd : (!env.dirExists && !env.mkdirOk) = false := by
    rcases hdir with h | h <;> simp [h]
  refine ⟨?_, ?_, ?_⟩
  · intro hw hs
    have hmain : saveFastFontCache s env =
        { ok := true, removedBin := false, removedJson := false,
          meta := metaLayoutSel env.metaAllocOk 0 0 s.cacheMap,
          blob := (s.cacheMap.map fun p => p.2.bitmap.take p.2.dataSize).flatten,
          events :=
            (s.cacheMap.map fun p =>
              SaveEvent.writeBin (p.2.bitmap.take p.2.dataSize))
              ++ [SaveEvent.writeJson] } := by
      unfold saveFastFontCache
      rw [hd, if_neg (by simp), hjson, hbin]
      simp only [Bool.not_true, Bool.false_eq_true, if_false]
      rw [saveGo_success env s.cacheMap hw 0 0]
      simp [hs]
    refine ⟨hmain, fun hfits => ?_⟩
    rw [hmain]
    exact metaLayoutSel_all env.metaAllocOk hfits s.cacheMap 0 0
  · intro hw hs
    unfold saveFastFontCache
    rw [hd, if_neg (by simp), hjson, hbin]
    simp only [Bool.not_true, Bool.false_eq_true, if_false]
    rw [saveGo_success env s.cacheMap hw 0 0]
    simp [hs]
  · intro pre key entry post hsplit hfull hshort
    unfold saveFastFontCache
    rw [hd, if_neg (by simp), hjson, hbin]
    simp only [Bool.not_true, Bool.false_eq_true, if_false]
    rw [hsplit]
    rw [if_pos (by
      rw [saveGo_short env pre key entry post 0 0
        (fun j n hj => by simpa using hfull j n hj)
        (by simpa using hshort)]
      rfl)]
    exact ⟨rfl, rfl, rfl⟩

/-- A concrete two-entry cache used by the C5 witness. -/
def c5State : FontState :=
  cachePut (cachePut (initFont 64) ("A", 16) (List.replicate 32 3) 16 32 true)
    ("B", 16) (List.replicate 32 4) 16 32 true

/-- The save environment of the C5 witness: every write full, the JSON pool
never exhausted, `serializeJson` reporting 5 bytes. -/
def c5Env : SaveEnv :=
  { dirExists := true, mkdirOk := true, jsonOpenOk := true, binOpenOk := true,
    binWritten := fun _ n => n, metaAllocOk := fun _ => true,
    serializeWritten := 5 }

/-- Witness for C5 on a two-entry cache with fully successful writes and a
sufficient document pool: the blob is the concatenation of the two bitmaps,
the metadata write comes last, and the metadata is the complete layout with
offsets 0 and 32. -/
theorem saveFastFontCache_spec_witness :
    (saveFastFontCache c5State c5Env
      = { ok := true, removedBin := false, removedJson := false,
          meta := metaLayoutSel c5Env.metaAllocOk 0 0 c5State.cacheMap,
          blob := (c5State.cacheMap.map fun p =>
            p.2.bitmap.take p.2.dataSize).flatten,
          events :=
            (c5State.cacheMap.map fun p =>
              SaveEvent.writeBin (p.2.bitmap.take p.2.dataSize))
              ++ [SaveEvent.writeJson] }) ∧
    (saveFastFontCache c5State c5Env).meta = metaLayout 0 c5State.cacheMap :=
  ⟨((saveFastFontCache_spec c5State c5Env (Or.inl rfl) rfl rfl).1
      (fun _ _ => rfl) (by decide)).1,
   ((saveFastFontCache_spec c5State c5Env (Or.inl rfl) rfl rfl).1
      (fun _ _ => rfl) (by decide)).2 (fun _ => rfl)⟩

/-- Location of a glyph inside a blob file, as recorded in an index
document: `doc[character][String(size)]["file"]` and `["offset"]`. -/
structure GlyphLoc where
  file : String
  offset : Nat
deriving Repr, DecidableEq

/-- One file of the `/font_data` directory as seen by `findIndexFile`: its
name, whether it parses as JSON, and the parsed document — per character a
list of `(pixelSize, location)` pairs (the JSON keys the sizes by their
decimal strings; the embedding keys them by the number itself). -/
structure IndexFile where
  name : String
  parseOk : Bool
  doc : List (String × List (Nat × GlyphLoc))
deriving Repr, DecidableEq

/-- The SD-card state the per-glyph cold path runs against: the per-glyph
cache files under `/font_data/cache`, the index files of `/font_data`, the
glyph blob files, and whether opening a cache file for writing succeeds (the
best-effort write at line 597). -/
structure GlyphDisk where
  cacheFiles : List (String × List Nat)
  indexDir : List IndexFile
  blobFiles : List (String × List Nat)
  cacheWriteOk : Bool
deriving Repr, DecidableEq

/-- `SD.open(name)` for reading over a name → content table. -/
def fileFind (name : String) : List (String × List Nat) → Option (List Nat)
  | [] => none
  | (n, content) :: rest => if n = name then some content else fileFind name rest

/-- Writing a whole file: replace the content if present, create otherwise. -/
def fileWrite (name : String) (content : List Nat) :
    List (String × List Nat) → List (String × List Nat)
  | [] => [(name, content)]
  | (n, c) :: rest =>
    if n = name then (name, content) :: rest
    else (n, c) :: fileWrite name content rest

/-- `doc.containsKey(character)` with the character's size table. -/
def docFindChar (character : String) :
    List (String × List (Nat × GlyphLoc)) → Option (List (Nat × GlyphLoc))
  | [] => none
  | (c, sizes) :: rest =>
    if c = character then some sizes else docFindChar character rest

/-- `doc[character].containsKey(String(size))` with the recorded location. -/
def sizeFind (size : Nat) : List (Nat × GlyphLoc) → Option GlyphLoc
  | [] => none
  | (n, loc) :: rest => if n = size then some loc else sizeFind size rest

/-- The `(character, size)` lookup a resolved index document undergoes. -/
def docLookup (doc : List (String × List (Nat × GlyphLoc)))
    (character : String) (size : Nat) : Option GlyphLoc :=
  match docFindChar character doc with
  | none => none
  | some sizes => sizeFind size sizes

/-- `String(file.name()).startsWith("index_")` (byte-wise prefix test). -/
def nameStartsWithIndex (name : String) : Bool :=
  "index_".toList.isPrefixOf name.toList

/-- Directory scan of `Font::findIndexFile` (lines 446–472): the first file
whose name starts with `index_`, parses, and declares the character; `""`
when none does. -/
def findIndexFileGo (character : String) : List IndexFile → String
  | [] => ""
  | f :: rest =>
    if nameStartsWithIndex f.name ∧ f.parseOk = true
        ∧ (docFindChar character f.doc).isSome then f.name
    else findIndexFileGo character rest

/-- `Font::findIndexFile`. -/
def findIndexFile (d : GlyphDisk) (character : String) : String :=
  findIndexFileGo character d.indexDir

/-- `SD.open("/font_data/" + indexFile)` over the directory listing: the
index file of the given name, if any. -/
def indexFileFind (name : String) : List IndexFile → Option IndexFile
  | [] => none
  | f :: rest => if f.name = name then some f else indexFileFind name rest

/-- The reserved placeholder character substituted on lookup failure. -/
def placeholderChar : String := "☐"

/-- The per-glyph cache file name
`"/font_data/cache/" + character + "_" + size + ".font"` (line 478, built
from the ORIGINAL character before any placeholder substitution). -/
def glyphCacheFilename (character : String) (size : Nat) : String :=
  "/font_data/cache/" ++ character ++ "_" ++ toString size ++ ".font"

/-- Result of `Font::loadCharacter`: the returned `bool`, the bytes left in
`fontBuffer` (`none` after `clearBuffer` on failure), the `bufferSize` member
(0 standing for the paths that fail before line 483/568 sets it), the number
of `findIndexFile` invocations performed (instrumentation for the fallback
protocol), and the possibly updated disk (best-effort cache write). -/
structure LoadCharResult where
  ok : Bool
  fontBuffer : Option (List Nat)
  bufferSize : Nat
  lookups : Nat
  disk : GlyphDisk
deriving Repr, DecidableEq

/-- Lines 557–604 of `Font::loadCharacter`: open the recorded blob file,
allocate `(size² + 7) / 8` bytes, seek to the recorded offset — the seek's
return value is UNCHECKED, a failed (out-of-range) seek leaves the position
at the start of the file — read, and on a full read write the buffer
best-effort to the per-glyph cache file named after the original character. -/
def readGlyphFromIndex (d : GlyphDisk) (size : Nat) (loc : GlyphLoc)
    (lookups : Nat) (allocOk : Bool) (cacheFilename : String) :
    LoadCharResult :=
  match fileFind ("/font_data/" ++ loc.file) d.blobFiles with
  | none => { ok := false, fontBuffer := none, bufferSize := 0,
              lookups := lookups, disk := d }
  | some content =>
    let bufferSize := glyphBufferSize size
    if !allocOk then
      { ok := false, fontBuffer := none, bufferSize := bufferSize,
        lookups := lookups, disk := d }
    else
      let pos := if loc.offset ≤ content.length then loc.offset else 0
      if min bufferSize (content.length - pos) ≠ bufferSize then
        { ok := false, fontBuffer := none, bufferSize := bufferSize,
          lookups := lookups, disk := d }
      else
        let buf := (content.drop pos).take bufferSize
        { ok := true, fontBuffer := some buf, bufferSize := bufferSize,
          lookups := lookups,
          disk := if d.cacheWriteOk then
              { d with cacheFiles := fileWrite cacheFilename buf d.cacheFiles }
            else d }

/-- Lines 516–604 of `Font::loadCharacter`: re-open and re-parse the index
file `findIndexFile` returned; if the document lacks the `(character, size)`
entry, substitute the placeholder, redo the index lookup (one more
`findIndexFile` call), re-open, re-parse and re-check; read the glyph on a
resolved entry. -/
def loadFromIndexFile (d : GlyphDisk) (character : String) (size : Nat)
    (indexFile : String) (lookups : Nat) (allocOk : Bool)
    (cacheFilename : String) : LoadCharResult :=
  match indexFileFind indexFile d.indexDir with
  | none => { ok := false, fontBuffer := none, bufferSize := 0,
              lookups := lookups, disk := d }
  | some f =>
    if !f.parseOk then
      { ok := false, fontBuffer := none, bufferSize := 0, lookups := lookups,
        disk := d }
    else
      match docLookup f.doc character size with
      | some loc => readGlyphFromIndex d size loc lookups allocOk cacheFilename
      | none =>
        let indexFile2 := findIndexFile d placeholderChar
        if indexFile2 = "" then
          { ok := false, fontBuffer := none, bufferSize := 0,
            lookups := lookups + 1, disk := d }
        else
          match indexFileFind indexFile2 d.indexDir with
          | none => { ok := false, fontBuffer := none, bufferSize := 0,
                      lookups := lookups + 1, disk := d }
          | some f2 =>
            if !f2.parseOk then
              { ok := false, fontBuffer := none, bufferSize := 0,
                lookups := lookups + 1, disk := d }
            else
              match docLookup f2.doc placeholderChar size with
              | some loc =>
                readGlyphFromIndex d size loc (lookups + 1) allocOk cacheFilename
              | none =>
                { ok := false, fontBuffer := none, bufferSize := 0,
                  lookups := lookups + 1, disk := d }

/-- Lines 505–514 of `Font::loadCharacter`: the initial index lookup; when no
index file declares the character, substitute the placeholder and look up
once more before entering the common read path. -/
def loadColdFrom (d : GlyphDisk) (character : String) (size : Nat)
    (allocOk : Bool) (cacheFilename : String) : LoadCharResult :=
  let indexFile := findIndexFile d character
  if indexFile = "" then
    let indexFile2 := findIndexFile d placeholderChar
    if indexFile2 = "" then
      { ok := false, fontBuffer := none, bufferSize := 0, lookups := 2,
        disk := d }
    else loadFromIndexFile d placeholderChar size indexFile2 2 allocOk cacheFilename
  else loadFromIndexFile d character size indexFile 1 allocOk cacheFilename

/-- `Font::loadCharacter` (lines 474–605): try the per-glyph cache file
first — allocate `(size² + 7) / 8` bytes and read; a full read returns
directly, a short read falls through to the cold path, as does a missing
file.  `alloc1` is the `malloc` of the cache path, `alloc2` the one of the
cold path. -/
def loadCharacter (d : GlyphDisk) (character : String) (size : Nat)
    (alloc1 alloc2 : Bool) : LoadCharResult :=
  let cacheFilename := glyphCacheFilename character size
  match fileFind cacheFilename d.cacheFiles with
  | some content =>
    let bufferSize := glyphBufferSize size
    if !alloc1 then
      { ok := false, fontBuffer := none, bufferSize := bufferSize,
        lookups := 0, disk := d }
    else if min bufferSize content.length = bufferSize then
      { ok := true, fontBuffer := some (content.take bufferSize),
        bufferSize := bufferSize, lookups := 0, disk := d }
    else loadColdFrom d character size alloc2 cacheFilename
  | none => loadColdFrom d character size alloc2 cacheFilename

/-- Result of `Font::getCharacterBitmap`: the returned pointer's bytes, the
new memory state, the new disk, whether the fast-cache save was triggered,
and — when it was — the `cacheMap` passed to `saveFastFontCache` at that
moment. -/
structure GetBitmapResult where
  result : Option (List Nat)
  state : FontState
  disk : GlyphDisk
  saveTriggered : Bool
  mapAtSave : Option (List (CacheKey × CacheEntry))
deriving Repr, DecidableEq

/-- `Font::getCharacterBitmap` (lines 608–648): memory-cache `get` first and
return on a hit; on a miss run `loadCharacter`, returning null on failure;
then increment `fontsReadFromSDCounter` and, at `SAVE_CACHE_INTERVAL`, invoke
`saveFastFontCache` (snapshotting the map as it is at that moment) and reset
the counter regardless of the save's outcome; only after that `cachePut` the
fresh buffer; finally return the buffer. -/
def getCharacterBitmap (s : FontState) (d : GlyphDisk) (character : String)
    (size : Nat) (alloc1 alloc2 allocPut : Bool) : GetBitmapResult :=
  let key : CacheKey := (character, size)
  match cacheGet s key with
  | (some entry, s1) =>
    { result := some entry.bitmap, state := s1, disk := d,
      saveTriggered := false, mapAtSave := none }
  | (none, s1) =>
    let r := loadCharacter d character size alloc1 alloc2
    if !r.ok then
      { result := none, state := s1, disk := r.disk, saveTriggered := false,
        mapAtSave := none }
    else
      let s2 := { s1 with fontsReadFromSDCounter := s1.fontsReadFromSDCounter + 1 }
      let trig : Bool := decide (SAVE_CACHE_INTERVAL ≤ s2.fontsReadFromSDCounter)
      let mapAt := if trig then some s2.cacheMap else none
      let s3 := if trig then { s2 with fontsReadFromSDCounter := 0 } else s2
      let s4 :=
        match r.fontBuffer with
        | some buf =>
          if 0 < r.bufferSize then cachePut s3 key buf size r.bufferSize allocPut
          else s3
        | none => s3
      { result := r.fontBuffer, state := s4, disk := r.disk,
        saveTriggered := trig, mapAtSave := mapAt }

theorem mapFind_cons_self (key : CacheKey) (e : CacheEntry)
    (m : List (CacheKey × CacheEntry)) : mapFind key ((key, e) :: m) = some e := by
  unfold mapFind
  rw [if_pos rfl]

theorem mapErase_not_found (key k2 : CacheKey) (m : List (CacheKey × CacheEntry))
    (h : mapFind key m = none) : mapFind key (mapErase k2 m) = none := by
  induction m with
  | nil => rfl
  | cons p rest ih =>
    obtain ⟨k, e⟩ := p
    unfold mapFind at h
    by_cases hk : k = key
    · rw [if_pos hk] at h
      exact absurd h (by simp)
    · rw [if_neg hk] at h
      unfold mapErase
      by_cases h2 : k = k2
      · rw [if_pos h2]
        exact h
      · rw [if_neg h2]
        unfold mapFind
        rw [if_neg hk]
        exact ih h

theorem cacheEvictGo_not_found (key : CacheKey) (fuel : Nat) :
    ∀ (m : List (CacheKey × CacheEntry)) (lru : List CacheKey) (cur maxB : Nat),
      mapFind key m = none →
      mapFind key (cacheEvictGo fuel m lru cur maxB).1 = none := by
  induction fuel with
  | zero => intro m lru cur maxB h; exact h
  | succ n ih =>
    intro m lru cur maxB h
    unfold cacheEvictGo
    split
    · dsimp only
      cases hm : mapFind (lru.getLastD ("", 0)) m with
      | some e => exact ih _ _ _ _ (mapErase_not_found _ _ _ h)
      | none => exact ih _ _ _ _ h
    · exact h

theorem cacheEvict_not_found (s : FontState) (key : CacheKey)
    (h : mapFind key s.cacheMap = none) :
    mapFind key (cacheEvict s).cacheMap = none :=
  cacheEvictGo_not_found key _ _ _ _ _ h

theorem cacheEvict_counter (s : FontState) :
    (cacheEvict s).fontsReadFromSDCounter = s.fontsReadFromSDCounter := rfl

theorem cachePut_counter (s : FontState) (key : CacheKey) (data : List Nat)
    (cs ds : Nat) (a : Bool) :
    (cachePut s key data cs ds a).fontsReadFromSDCounter
      = s.fontsReadFromSDCounter := by
  unfold cachePut
  by_cases h1 : (mapFind key s.cacheMap).isSome
  · rw [if_pos h1]
  · rw [if_neg h1]
    by_cases hP : s.maxCacheSizeInBytes < s.currentCacheSizeInBytes + ds
    · simp only [if_pos hP]
      by_cases h2 : (cacheEvict s).maxCacheSizeInBytes
          < (cacheEvict s).currentCacheSizeInBytes + ds
      · rw [if_pos h2]
        exact cacheEvict_counter s
      · rw [if_neg h2]
        cases a with
        | false => exact cacheEvict_counter s
        | true => exact cacheEvict_counter s
    · simp only [if_neg hP]
      cases a with
      | false => rfl
      | true => rfl

theorem cachePut_mapFind_self (s : FontState) (key : CacheKey) (data : List Nat)
    (cs ds : Nat) (a : Bool) (h : mapFind key s.cacheMap = none) :
    mapFind key (cachePut s key data cs ds a).cacheMap = none ∨
    mapFind key (cachePut s key data cs ds a).cacheMap
      = some { bitmap := data.take ds, size := cs, dataSize := ds } := by
  unfold cachePut
  rw [if_neg (by rw [h]; simp)]
  by_cases hP : s.maxCacheSizeInBytes < s.currentCacheSizeInBytes + ds
  · simp only [if_pos hP]
    have h1 : mapFind key (cacheEvict s).cacheMap = none :=
      cacheEvict_not_found s key h
    by_cases h2 : (cacheEvict s).maxCacheSizeInBytes
        < (cacheEvict s).currentCacheSizeInBytes + ds
    · rw [if_pos h2]
      exact Or.inl h1
    · rw [if_neg h2]
      cases a with
      | false => exact Or.inl h1
      | true => exact Or.inr (mapFind_cons_self key _ _)
  · simp only [if_neg hP]
    cases a with
    | false => exact Or.inl h
    | true =>
      refine Or.inr ?_
      simp only [Bool.not_true, Bool.false_eq_true, if_false]
      exact mapFind_cons_self key _ _

theorem cacheGet_none (s : FontState) (key : CacheKey)
    (h : mapFind key s.cacheMap = none) : cacheGet s key = (none, s) := by
  unfold cacheGet
  rw [h]

theorem cacheGet_some (s : FontState) (key : CacheKey) (e : CacheEntry)
    (h : mapFind key s.cacheMap = some e) :
    cacheGet s key
      = (some e, { s with cacheLRUList := key :: s.cacheLRUList.erase key }) := by
  unfold cacheGet
  rw [h]

theorem getCharacterBitmap_hit (s : FontState) (d : GlyphDisk)
    (character : String) (size : Nat) (a1 a2 ap : Bool) (e : CacheEntry)
    (h : mapFind (character, size) s.cacheMap = some e) :
    getCharacterBitmap s d character size a1 a2 ap
      = { result := some e.bitmap,
          state := { s with cacheLRUList :=
            (character, size) :: s.cacheLRUList.erase (character, size) },
          disk := d, saveTriggered := false, mapAtSave := none } := by
  unfold getCharacterBitmap
  dsimp only
  rw [cacheGet_some s (character, size) e h]

theorem readGlyphFromIndex_ok_buffer (d : GlyphDisk) (size : Nat)
    (loc : GlyphLoc) (lookups : Nat) (allocOk : Bool) (cf : String)
    (h : (readGlyphFromIndex d size loc lookups allocOk cf).ok = true) :
    ∃ buf, (readGlyphFromIndex d size loc lookups allocOk cf).fontBuffer
        = some buf ∧
      buf.length = (readGlyphFromIndex d size loc lookups allocOk cf).bufferSize := by
  unfold readGlyphFromIndex at h ⊢
  cases hf : fileFind ("/font_data/" ++ loc.file) d.blobFiles with
  | none => rw [hf] at h; simp at h
  | some content =>
    rw [hf] at h
    dsimp only at h ⊢
    cases allocOk with
    | false => simp at h
    | true =>
      simp only [Bool.not_true, Bool.false_eq_true, if_false] at h ⊢
      by_cases hr : min (glyphBufferSize size)
          (content.length -
            (if loc.offset ≤ content.length then loc.offset else 0))
          ≠ glyphBufferSize size
      · rw [if_pos hr] at h
        simp at h
      · rw [if_neg hr] at h ⊢
        refine ⟨_, rfl, ?_⟩
        rw [List.length_take, List.length_drop]
        exact not_ne_iff.mp hr

theorem readGlyphFromIndex_lookups (d : GlyphDisk) (size : Nat)
    (loc : GlyphLoc) (lookups : Nat) (allocOk : Bool) (cf : String) :
    (readGlyphFromIndex d size loc lookups allocOk cf).lookups = lookups := by
  unfold readGlyphFromIndex
  cases fileFind ("/font_data/" ++ loc.file) d.blobFiles with
  | none => rfl
  | some content =>
    dsimp only
    split
    · rfl
    · split <;> split <;> rfl

theorem loadFromIndexFile_ok_buffer (d : GlyphDisk) (character : String)
    (size : Nat) (indexFile : String) (lookups : Nat) (allocOk : Bool)
    (cf : String)
    (h : (loadFromIndexFile d character size indexFile lookups allocOk cf).ok
      = true) :
    ∃ buf,
      (loadFromIndexFile d character size indexFile lookups allocOk cf).fontBuffer
        = some buf ∧
      buf.length
        = (loadFromIndexFile d character size indexFile lookups allocOk cf).bufferSize := by
  unfold loadFromIndexFile at h ⊢
  cases hf : indexFileFind indexFile d.indexDir with
  | none => rw [hf] at h; simp at h
  | some f =>
    rw [hf] at h
    dsimp only at h ⊢
    cases hp : f.parseOk with
    | false => rw [hp] at h; simp at h
    | true =>
      rw [hp] at h
      simp only [Bool.not_true, Bool.false_eq_true, if_false] at h ⊢
      cases hd : docLookup f.doc character size with
      | some loc =>
        rw [hd] at h
        exact readGlyphFromIndex_ok_buffer d size loc lookups allocOk cf h
      | none =>
        rw [hd] at h
        dsimp only at h ⊢
        by_cases h2 : findIndexFile d placeholderChar = ""
        · rw [if_pos h2] at h
          simp at h
        · rw [if_neg h2] at h ⊢
          cases hf2 : indexFileFind (findIndexFile d placeholderChar) d.indexDir with
          | none => rw [hf2] at h; simp at h
          | some f2 =>
            rw [hf2] at h
            dsimp only at h ⊢
            cases hp2 : f2.parseOk with
            | false => rw [hp2] at h; simp at h
            | true =>
              rw [hp2] at h
              simp only [Bool.not_true, Bool.false_eq_true, if_false] at h ⊢
              cases hd2 : docLookup f2.doc placeholderChar size with
              | some loc =>
                rw [hd2] at h
                exact readGlyphFromIndex_ok_buffer d size loc (lookups + 1)
                  allocOk cf h
              | none => rw [hd2] at h; simp at h

theorem loadColdFrom_ok_buffer (d : GlyphDisk) (character : String)
    (size : Nat) (allocOk : Bool) (cf : String)
    (h : (loadColdFrom d character size allocOk cf).ok = true) :
    ∃ buf, (loadColdFrom d character size allocOk cf).fontBuffer = some buf ∧
      buf.length = (loadColdFrom d character size allocOk cf).bufferSize := by
  unfold loadColdFrom at h ⊢
  by_cases h1 : findIndexFile d character = ""
  · rw [if_pos h1] at h ⊢
    dsimp only at h ⊢
    by_cases h2 : findIndexFile d placeholderChar = ""
    · rw [if_pos h2] at h
      exact absurd h (by simp)
    · rw [if_neg h2] at h ⊢
      exact loadFromIndexFile_ok_buffer d placeholderChar size _ 2 allocOk cf h
  · rw [if_neg h1] at h ⊢
    exact loadFromIndexFile_ok_buffer d character size _ 1 allocOk cf h

theorem loadCharacter_ok_buffer (d : GlyphDisk) (character : String)
    (size : Nat) (alloc1 alloc2 : Bool)
    (h : (loadCharacter d character size alloc1 alloc2).ok = true) :
    ∃ buf, (loadCharacter d character size alloc1 alloc2).fontBuffer = some buf ∧
      buf.length = (loadCharacter d character size alloc1 alloc2).bufferSize := by
  unfold loadCharacter at h ⊢
  dsimp only at h ⊢
  cases hc : fileFind (glyphCacheFilename character size) d.cacheFiles with
  | none =>
    rw [hc] at h
    exact loadColdFrom_ok_buffer d character size alloc2 _ h
  | some content =>
    rw [hc] at h
    dsimp only at h ⊢
    cases alloc1 with
    | false => exact absurd h (by simp)
    | true =>
      simp only [Bool.not_true, Bool.false_eq_true, if_false] at h ⊢
      by_cases hr : min (glyphBufferSize size) content.length = glyphBufferSize size
      · rw [if_pos hr] at h ⊢
        refine ⟨_, rfl, ?_⟩
        rw [List.length_take]
        exact hr
      · rw [if_neg hr] at h ⊢
        exact loadColdFrom_ok_buffer d character size alloc2 _ h

theorem getCharacterBitmap_miss (s : FontState) (d : GlyphDisk)
    (character : String) (size : Nat) (a1 a2 ap : Bool)
    (hmem : mapFind (character, size) s.cacheMap = none) :
    getCharacterBitmap s d character size a1 a2 ap =
      (let r := loadCharacter d character size a1 a2
       if !r.ok then
         { result := none, state := s, disk := r.disk, saveTriggered := false,
           mapAtSave := none }
       else
         let trig : Bool :=
           decide (SAVE_CACHE_INTERVAL ≤ s.fontsReadFromSDCounter + 1)
         let mapAt := if trig then some s.cacheMap else none
         let s3 :=
           if trig then { s with fontsReadFromSDCounter := 0 }
           else { s with fontsReadFromSDCounter := s.fontsReadFromSDCounter + 1 }
         let s4 :=
           match r.fontBuffer with
           | some buf =>
             if 0 < r.bufferSize then
               cachePut s3 (character, size) buf size r.bufferSize ap
             else s3
           | none => s3
         { result := r.fontBuffer, state := s4, disk := r.disk,
           saveTriggered := trig, mapAtSave := mapAt }) := by
  unfold getCharacterBitmap
  dsimp only
  rw [cacheGet_none s (character, size) hmem]

theorem loadFromIndexFile_lookups (d : GlyphDisk) (character : String)
    (size : Nat) (indexFile : String) (lookups : Nat) (allocOk : Bool)
    (cf : String) :
    (loadFromIndexFile d character size indexFile lookups allocOk cf).lookups
        = lookups ∨
    (loadFromIndexFile d character size indexFile lookups allocOk cf).lookups
        = lookups + 1 := by
  unfold loadFromIndexFile
  cases indexFileFind indexFile d.indexDir with
  | none => left; rfl
  | some f =>
    dsimp only
    split
    · left; rfl
    · cases docLookup f.doc character size with
      | some loc => left; exact readGlyphFromIndex_lookups d size loc lookups allocOk cf
      | none =>
        dsimp only
        split
        · right; rfl
        · cases indexFileFind (findIndexFile d placeholderChar) d.indexDir with
          | none => right; rfl
          | some f2 =>
            dsimp only
            split
            · right; rfl
            · cases docLookup f2.doc placeholderChar size with
              | some loc =>
                right
                exact readGlyphFromIndex_lookups d size loc (lookups + 1) allocOk cf
              | none => right; rfl

theorem loadFromIndexFile_lookups_fallback (d : GlyphDisk) (character : String)
    (size : Nat) (indexFile : String) (lookups : Nat) (allocOk : Bool)
    (cf : String) (f : IndexFile)
    (hf : indexFileFind indexFile d.indexDir = some f) (hp : f.parseOk = true)
    (hd : docLookup f.doc character size = none) :
    (loadFromIndexFile d character size indexFile lookups allocOk cf).lookups
      = lookups + 1 := by
  unfold loadFromIndexFile
  rw [hf]
  dsimp only
  rw [hp]
  simp only [Bool.not_true, Bool.false_eq_true, if_false]
  rw [hd]
  dsimp only
  split
  · rfl
  · cases indexFileFind (findIndexFile d placeholderChar) d.indexDir with
    | none => rfl
    | some f2 =>
      dsimp only
      split
      · rfl
      · cases docLookup f2.doc placeholderChar size with
        | some loc =>
          exact readGlyphFromIndex_lookups d size loc (lookups + 1) allocOk cf
        | none => rfl

theorem getCharacterBitmap_miss_fail (s : FontState) (d : GlyphDisk)
    (character : String) (size : Nat) (a1 a2 ap : Bool)
    (hmem : mapFind (character, size) s.cacheMap = none)
    (hfail : (loadCharacter d character size a1 a2).ok = false) :
    (getCharacterBitmap s d character size a1 a2 ap).result = none ∧
    (getCharacterBitmap s d character size a1 a2 ap).state = s := by
  rw [getCharacterBitmap_miss s d character size a1 a2 ap hmem]
  dsimp only
  rw [hfail]
  exact ⟨rfl, rfl⟩

/-- **C6** (counterexample input): no per-glyph cache file, a single index
file whose document has the placeholder `☐` as a top-level key but no entry
for size 16. -/
def c6Disk : GlyphDisk :=
  { cacheFiles := [],
    indexDir := [{ name := "index_0", parseOk := true, doc := [("☐", [])] }],
    blobFiles := [], cacheWriteOk := true }

/-- **C6** (counterexample).  Requesting `"A"` at size 16 against `c6Disk`:
the index lookup finds no document for `"A"`, the placeholder is substituted
— but the code then performs the index lookup for `☐` TWICE (once at the
substitution, once more when `☐`'s document turns out to lack the size
entry), three `findIndexFile` invocations in total, contradicting
"repeats the index lookup exactly once" (which would give two in total). -/
theorem c6_counterexample :
    fileFind (glyphCacheFilename "A" 16) c6Disk.cacheFiles = none ∧
    findIndexFile c6Disk "A" = "" ∧
    (loadCharacter c6Disk "A" 16 true true).ok = false ∧
    (loadCharacter c6Disk "A" 16 true true).lookups = 3 := by
  decide

/-- **C6** (amended).  When the per-glyph disk cache misses and the index
lookup finds no document for the character, or finds one (that re-parses)
lacking the `(character, size)` entry, `loadCharacter` substitutes the
placeholder `☐` and repeats the index lookup with it at least once and at
most twice (twice exactly when no document was found for the original
character and the placeholder's document then lacks the entry); if the
placeholder cannot be resolved either, the load fails terminally — no
further character fallback — and `getCharacterBitmap` returns null. -/
theorem loadCharacter_placeholder_fallback (s : FontState) (d : GlyphDisk)
    (character : String) (size : Nat) (a1 a2 ap : Bool)
    (hcache : fileFind (glyphCacheFilename character size) d.cacheFiles = none)
    (hmiss : findIndexFile d character = "" ∨
      (findIndexFile d character ≠ "" ∧
        ∃ f, indexFileFind (findIndexFile d character) d.indexDir = some f ∧
          f.parseOk = true ∧ docLookup f.doc character size = none))
    (hmem : mapFind (character, size) s.cacheMap = none) :
    2 ≤ (loadCharacter d character size a1 a2).lookups ∧
    (loadCharacter d character size a1 a2).lookups ≤ 3 ∧
    ((loadCharacter d character size a1 a2).ok = false →
      (getCharacterBitmap s d character size a1 a2 ap).result = none) := by
  have hload : loadCharacter d character size a1 a2
      = loadColdFrom d character size a2 (glyphCacheFilename character size) := by
    unfold loadCharacter
    dsimp only
    rw [hcache]
  refine ⟨?_, ?_, fun hfail =>
    (getCharacterBitmap_miss_fail s d character size a1 a2 ap hmem hfail).1⟩
  · rw [hload]
    unfold loadColdFrom
    rcases hmiss with h1 | ⟨h1, f, hf, hp, hd⟩
    · rw [if_pos h1]
      dsimp only
      split
      · exact le_refl 2
      · rcases loadFromIndexFile_lookups d placeholderChar size
            (findIndexFile d placeholderChar) 2 a2
            (glyphCacheFilename character size) with h | h
        · rw [h]
        · rw [h]
          exact Nat.le_succ 2
    · rw [if_neg h1]
      rw [loadFromIndexFile_lookups_fallback d character size
        (findIndexFile d character) 1 a2 (glyphCacheFilename character size)
        f hf hp hd]
  · rw [hload]
    unfold loadColdFrom
    rcases hmiss with h1 | ⟨h1, f, hf, hp, hd⟩
    · rw [if_pos h1]
      dsimp only
      split
      · exact Nat.le_succ 2
      · rcases loadFromIndexFile_lookups d placeholderChar size
            (findIndexFile d placeholderChar) 2 a2
            (glyphCacheFilename character size) with h | h
        · rw [h]
          exact Nat.le_succ 2
        · rw [h]
    · rw [if_neg h1]
      rw [loadFromIndexFile_lookups_fallback d character size
        (findIndexFile d character) 1 a2 (glyphCacheFilename character size)
        f hf hp hd]
      exact Nat.le_succ 2

/-- Witness for the amended C6: a disk with no index files at all; the
original and placeholder lookups both fail (2 lookups), the load fails and
`getCharacterBitmap` returns null. -/
theorem loadCharacter_placeholder_fallback_witness :
    2 ≤ (loadCharacter
        { cacheFiles := [], indexDir := [], blobFiles := [], cacheWriteOk := true }
        "A" 16 true true).lookups ∧
    (loadCharacter
        { cacheFiles := [], indexDir := [], blobFiles := [], cacheWriteOk := true }
        "A" 16 true true).lookups ≤ 3 ∧
    ((loadCharacter
        { cacheFiles := [], indexDir := [], blobFiles := [], cacheWriteOk := true }
        "A" 16 true true).ok = false →
      (getCharacterBitmap (initFont 64)
        { cacheFiles := [], indexDir := [], blobFiles := [], cacheWriteOk := true }
        "A" 16 true true true).result = none) :=
  loadCharacter_placeholder_fallback (initFont 64)
    { cacheFiles := [], indexDir := [], blobFiles := [], cacheWriteOk := true }
    "A" 16 true true true rfl (Or.inl rfl) rfl

theorem getCharacterBitmap_miss_ok_state (s : FontState) (d : GlyphDisk)
    (character : String) (size : Nat) (a1 a2 ap : Bool) (buf : List Nat)
    (hmem : mapFind (character, size) s.cacheMap = none)
    (hok : (loadCharacter d character size a1 a2).ok = true)
    (hbuf : (loadCharacter d character size a1 a2).fontBuffer = some buf) :
    ∃ s3 : FontState, s3.cacheMap = s.cacheMap ∧
      s3.fontsReadFromSDCounter
        = (if decide (SAVE_CACHE_INTERVAL ≤ s.fontsReadFromSDCounter + 1) = true
           then 0 else s.fontsReadFromSDCounter + 1) ∧
      (getCharacterBitmap s d character size a1 a2 ap).result = some buf ∧
      (getCharacterBitmap s d character size a1 a2 ap).state
        = (if 0 < (loadCharacter d character size a1 a2).bufferSize
           then cachePut s3 (character, size) buf size
             (loadCharacter d character size a1 a2).bufferSize ap
           else s3) ∧
      (getCharacterBitmap s d character size a1 a2 ap).saveTriggered
        = decide (SAVE_CACHE_INTERVAL ≤ s.fontsReadFromSDCounter + 1) ∧
      (getCharacterBitmap s d character size a1 a2 ap).mapAtSave
        = (if decide (SAVE_CACHE_INTERVAL ≤ s.fontsReadFromSDCounter + 1) = true
           then some s.cacheMap else none) := by
  rw [getCharacterBitmap_miss s d character size a1 a2 ap hmem]
  dsimp only
  rw [hok]
  simp only [Bool.not_true, Bool.false_eq_true, if_false]
  rw [hbuf]
  dsimp only
  refine ⟨_, ?_, ?_, rfl, rfl, trivial, trivial⟩
  · split <;> rfl
  · split <;> rfl

theorem mapFind_cachePut_some_of (s3 : FontState) (key : CacheKey)
    (buf : List Nat) (cs ds : Nat) (ap : Bool) (e : CacheEntry)
    (hnone : mapFind key s3.cacheMap = none)
    (h : mapFind key (cachePut s3 key buf cs ds ap).cacheMap = some e) :
    e = { bitmap := buf.take ds, size := cs, dataSize := ds } := by
  rcases cachePut_mapFind_self s3 key buf cs ds ap hnone with hc | hc
  · rw [hc] at h
    exact Option.noConfusion h
  · rw [hc] at h
    exact (Option.some.inj h).symm

/-- The disk holding a single per-glyph cache file for `("A", 16)` with the
32 expected bytes, used by the C4 and C8 concrete runs. -/
def perGlyphDisk : GlyphDisk :=
  { cacheFiles := [(glyphCacheFilename "A" 16, List.replicate 32 7)],
    indexDir := [], blobFiles := [], cacheWriteOk := true }

/-- **C4** (counterexample).  With `maxCacheSizeInBytes = 0` the freshly
loaded glyph is dropped by `cachePut` (eviction never frees room), so the
second `getCharacterBitmap` for the same glyph performs a SECOND cold read:
the cold-read counter reaches 2, contradicting "stays at 1", even though the
first call successfully loaded the glyph cold. -/
theorem c4_counterexample :
    (getCharacterBitmap (initFont 0) perGlyphDisk "A" 16 true true true).result.isSome
        = true ∧
    (getCharacterBitmap (initFont 0) perGlyphDisk "A" 16 true true
        true).state.fontsReadFromSDCounter = 1 ∧
    (getCharacterBitmap
        (getCharacterBitmap (initFont 0) perGlyphDisk "A" 16 true true true).state
        (getCharacterBitmap (initFont 0) perGlyphDisk "A" 16 true true true).disk
        "A" 16 true true true).state.fontsReadFromSDCounter = 2 := by
  decide

/-- **C4** (amended).  For every glyph whose first `getCharacterBitmap` call
leaves the key present in `cacheMap` (a memory hit, or a cold load whose
`cachePut` was admitted — within budget and allocation succeeded), a second
call with the same character and size returns byte-identical bitmap data,
performs no second cold read (`fontsReadFromSDCounter` unchanged) and
triggers no save. -/
theorem cold_hot_roundtrip (s : FontState) (d d2 : GlyphDisk)
    (character : String) (size : Nat) (a1 a2 ap b1 b2 bp : Bool)
    (e : CacheEntry)
    (h : mapFind (character, size)
        (getCharacterBitmap s d character size a1 a2 ap).state.cacheMap
      = some e) :
    (getCharacterBitmap s d character size a1 a2 ap).result = some e.bitmap ∧
    (getCharacterBitmap (getCharacterBitmap s d character size a1 a2 ap).state
        d2 character size b1 b2 bp).result = some e.bitmap ∧
    (getCharacterBitmap (getCharacterBitmap s d character size a1 a2 ap).state
        d2 character size b1 b2 bp).state.fontsReadFromSDCounter
      = (getCharacterBitmap s d character size a1 a2 ap).state.fontsReadFromSDCounter ∧
    (getCharacterBitmap (getCharacterBitmap s d character size a1 a2 ap).state
        d2 character size b1 b2 bp).saveTriggered = false := by
  have h2 := getCharacterBitmap_hit
    (getCharacterBitmap s d character size a1 a2 ap).state d2 character size
    b1 b2 bp e h
  refine ⟨?_, by rw [h2], by rw [h2], by rw [h2]⟩
  cases hm : mapFind (character, size) s.cacheMap with
  | some entry =>
    have he : entry = e := by
      have h3 := h
      rw [getCharacterBitmap_hit s d character size a1 a2 ap entry hm] at h3
      dsimp only at h3
      rw [hm] at h3
      exact Option.some.inj h3
    rw [getCharacterBitmap_hit s d character size a1 a2 ap entry hm, he]
  | none =>
    cases hok : (loadCharacter d character size a1 a2).ok with
    | false =>
      have hf := getCharacterBitmap_miss_fail s d character size a1 a2 ap hm hok
      rw [hf.2] at h
      rw [hm] at h
      exact Option.noConfusion h
    | true =>
      obtain ⟨buf, hbuf, hlen⟩ := loadCharacter_ok_buffer d character size a1 a2 hok
      obtain ⟨s3, hs3map, hs3cnt, hres, hstate, htrig, hmapAt⟩ :=
        getCharacterBitmap_miss_ok_state s d character size a1 a2 ap buf hm hok hbuf
      rw [hres]
      rw [hstate] at h
      by_cases hbs : 0 < (loadCharacter d character size a1 a2).bufferSize
      · rw [if_pos hbs] at h
        have hnone : mapFind (character, size) s3.cacheMap = none := by
          rw [hs3map]; exact hm
        have he := mapFind_cachePut_some_of s3 (character, size) buf size
          (loadCharacter d character size a1 a2).bufferSize ap e hnone h
        rw [he]
        dsimp only
        rw [← hlen, List.take_length]
      · rw [if_neg hbs] at h
        rw [hs3map] at h
        rw [hm] at h
        exact Option.noConfusion h

/-- Witness for the amended C4: a cold load of `("A", 16)` into an empty
64-byte cache admits the entry; the second call returns the same 32 bytes
with the counter still at 1 and no save triggered. -/
theorem cold_hot_roundtrip_witness :
    (getCharacterBitmap (initFont 64) perGlyphDisk "A" 16 true true true).result
        = some (List.replicate 32 7) ∧
    (getCharacterBitmap
        (getCharacterBitmap (initFont 64) perGlyphDisk "A" 16 true true true).state
        perGlyphDisk "A" 16 true true true).result = some (List.replicate 32 7) ∧
    (getCharacterBitmap
        (getCharacterBitmap (initFont 64) perGlyphDisk "A" 16 true true true).state
        perGlyphDisk "A" 16 true true true).state.fontsReadFromSDCounter
      = (getCharacterBitmap (initFont 64) perGlyphDisk "A" 16 true true
          true).state.fontsReadFromSDCounter ∧
    (getCharacterBitmap
        (getCharacterBitmap (initFont 64) perGlyphDisk "A" 16 true true true).state
        perGlyphDisk "A" 16 true true true).saveTriggered = false :=
  cold_hot_roundtrip (initFont 64) perGlyphDisk perGlyphDisk "A" 16
    true true true true true true
    { bitmap := List.replicate 32 7, size := 16, dataSize := 32 } (by decide)

/-- **C8** (counterexample).  With the counter at 9, the cold load of
`("A", 16)` triggers the save — but the map snapshotted at the trigger is
EMPTY, while the triggering glyph is inserted into the cache right after: the
snapshot written at that trigger does not include the glyph whose load
triggered it, because the counter/trigger runs before `cachePut`, not
after. -/
theorem c8_counterexample :
    (getCharacterBitmap { initFont 64 with fontsReadFromSDCounter := 9 }
        perGlyphDisk "A" 16 true true true).saveTriggered = true ∧
    (getCharacterBitmap { initFont 64 with fontsReadFromSDCounter := 9 }
        perGlyphDisk "A" 16 true true true).mapAtSave = some [] ∧
    (mapFind ("A", 16)
        (getCharacterBitmap { initFont 64 with fontsReadFromSDCounter := 9 }
          perGlyphDisk "A" 16 true true true).state.cacheMap).isSome = true := by
  decide

/-- **C8** (amended).  On a cold miss `getCharacterBitmap` increments the
cold-load counter and triggers `saveFastFontCache` at the threshold BEFORE
putting the fresh bitmap into the LRU cache: the save is triggered exactly
when the incremented counter reaches `SAVE_CACHE_INTERVAL`, the map passed to
the save is the pre-put `cacheMap` (the snapshot excludes the triggering
glyph), and the counter resets to zero regardless of the save's outcome. -/
theorem coldload_counter_trigger (s : FontState) (d : GlyphDisk)
    (character : String) (size : Nat) (a1 a2 ap : Bool)
    (hmem : mapFind (character, size) s.cacheMap = none)
    (hok : (loadCharacter d character size a1 a2).ok = true) :
    (getCharacterBitmap s d character size a1 a2 ap).saveTriggered
      = decide (SAVE_CACHE_INTERVAL ≤ s.fontsReadFromSDCounter + 1) ∧
    ((getCharacterBitmap s d character size a1 a2 ap).saveTriggered = true →
      (getCharacterBitmap s d character size a1 a2 ap).mapAtSave
          = some s.cacheMap ∧
      (getCharacterBitmap s d character size a1 a2 ap).state.fontsReadFromSDCounter
          = 0) := by
  obtain ⟨buf, hbuf, hlen⟩ := loadCharacter_ok_buffer d character size a1 a2 hok
  obtain ⟨s3, hs3map, hs3cnt, hres, hstate, htrig, hmapAt⟩ :=
    getCharacterBitmap_miss_ok_state s d character size a1 a2 ap buf hmem hok hbuf
  refine ⟨htrig, fun ht => ⟨?_, ?_⟩⟩
  · rw [hmapAt]
    rw [htrig] at ht
    rw [ht]
    rfl
  · rw [htrig] at ht
    rw [hstate]
    have hcnt : s3.fontsReadFromSDCounter = 0 := by
      rw [hs3cnt, ht]
      rfl
    by_cases hbs : 0 < (loadCharacter d character size a1 a2).bufferSize
    · rw [if_pos hbs, cachePut_counter]
      exact hcnt
    · rw [if_neg hbs]
      exact hcnt

/-- Witness for the amended C8: counter at 9, empty cache, cold load of
`("A", 16)` — the save triggers, snapshots the empty pre-put map, and the
counter resets to 0. -/
theorem coldload_counter_trigger_witness :
    (getCharacterBitmap { initFont 64 with fontsReadFromSDCounter := 9 }
        perGlyphDisk "A" 16 true true true).saveTriggered
      = decide (SAVE_CACHE_INTERVAL ≤ 9 + 1) ∧
    ((getCharacterBitmap { initFont 64 with fontsReadFromSDCounter := 9 }
        perGlyphDisk "A" 16 true true true).saveTriggered = true →
      (getCharacterBitmap { initFont 64 with fontsReadFromSDCounter := 9 }
          perGlyphDisk "A" 16 true true true).mapAtSave = some [] ∧
      (getCharacterBitmap { initFont 64 with fontsReadFromSDCounter := 9 }
          perGlyphDisk "A" 16 true true
          true).state.fontsReadFromSDCounter = 0) :=
  coldload_counter_trigger { initFont 64 with fontsReadFromSDCounter := 9 }
    perGlyphDisk "A" 16 true true true rfl (by decide)

end NovelComicReader
